import Mathlib

/-!
# Row_Finder 1.0 — verification of the spec against a shallow embedding

This file embeds the pure computational core of the Row_Finder repository
(statute/regulation linkage builder, article diff detector, text chunker,
cosine similarity, AI impact-analysis plumbing, batch embedding) as Lean
definitions and proves or refutes the specification's claims about them.

Conventions of the embedding:
* JS numbers that carry similarity scores are modelled as rationals `ℚ`;
  `Math.sqrt` (irrational on `ℚ`) is passed in as an explicit function
  parameter, with only the property `sqrt 0 = 0` ever assumed.
* JS strings are Lean `String`s (all text in play is BMP, where JS
  `length` agrees with the codepoint count).
* Database tables are lists of row structures; an SQL `LIMIT n` is
  `List.take n`; `ON CONFLICT ... DO UPDATE` is an explicit upsert.
* Fallible operations return `Option`/`Except`; a JS function that
  catches and returns `null` returns `none`.
-/

set_option maxHeartbeats 1000000

namespace RowFinder

/-! ## Data model (src/types/database.ts, fields used by the claims) -/

/-- A statute article (the fields of `Article` the analysed code reads). -/
structure Article where
  article_number : String
  article_title : String
  article_content : String
  deriving DecidableEq, Repr

/-- A local-regulation article (fields read by the heuristic filter). -/
structure RegulationArticle where
  article_number : String
  article_title : String
  article_content : String
  deriving DecidableEq, Repr

/-! ## Linkage builder (src/scripts/link-regulations-to-laws.js) -/

/-- `SIMILARITY_THRESHOLD = 0.65` from the script header. -/
def SIMILARITY_THRESHOLD : ℚ := 65 / 100

/-- `TOP_N_MATCHES = 5` from the script header. -/
def TOP_N_MATCHES : Nat := 5

/-- One row of the `law_regulation_links` table, as inserted by
`saveLawRegulationLink`. -/
structure LinkRow where
  link_id : String
  law_id : String
  regulation_id : String
  article_id : String
  confidence_score : ℚ
  link_type : String
  verified : Bool
  created_at : Nat
  deriving DecidableEq, Repr

/-- The link id generated inside `saveLawRegulationLink`:
`` `link_${regulationId}_${articleId}_${Date.now()}` ``.  Note that it
includes the current time `now`, not just the two endpoint ids. -/
def linkIdOf (regulationId articleId : String) (now : Nat) : String :=
  "link_" ++ regulationId ++ "_" ++ articleId ++ "_" ++ toString now

/-- `saveLawRegulationLink`: `INSERT ... ON CONFLICT (link_id) DO UPDATE
SET confidence_score = similarity`, modelled as an upsert on the list of
rows keyed by `link_id`.  `now` is the value of `Date.now()` at the call. -/
def saveLawRegulationLink (table : List LinkRow)
    (regulationId articleId lawId : String) (similarity : ℚ) (now : Nat) :
    List LinkRow :=
  let linkId := linkIdOf regulationId articleId now
  if table.any (fun r => r.link_id = linkId) then
    table.map (fun r =>
      if r.link_id = linkId then { r with confidence_score := similarity } else r)
  else
    table ++ [{ link_id := linkId, law_id := lawId,
                regulation_id := regulationId, article_id := articleId,
                confidence_score := similarity, link_type := "근거법령",
                verified := false, created_at := now }]

/-- A candidate row returned by the similarity query in
`findSimilarLawArticles` (the SELECTed columns). -/
structure Candidate where
  article_id : String
  law_id : String
  article_number : String
  article_title : String
  article_content : String
  law_name : String
  similarity : ℚ
  deriving DecidableEq, Repr

/-- `findSimilarLawArticles`: the SQL query orders the eligible articles
by similarity and applies `LIMIT TOP_N_MATCHES`; `ranked` is the database's
ordered answer and the `LIMIT` is `take`. -/
def findSimilarLawArticles (ranked : List Candidate) : List Candidate :=
  ranked.take TOP_N_MATCHES

/-- The row inserted for regulation `regulationId` and candidate `c`. -/
def mkLinkRow (regulationId : String) (now : Nat) (c : Candidate) : LinkRow :=
  { link_id := linkIdOf regulationId c.article_id now, law_id := c.law_id,
    regulation_id := regulationId, article_id := c.article_id,
    confidence_score := c.similarity, link_type := "근거법령",
    verified := false, created_at := now }

/-- The per-regulation loop body of `linkRegulationsToLaws`: walk the
candidates from `findSimilarLawArticles` and persist those with
`similarity >= SIMILARITY_THRESHOLD`; candidates below the threshold
leave the table untouched. -/
def processRegulationLinks (regulationId : String) (now : Nat)
    (table : List LinkRow) (ranked : List Candidate) : List LinkRow :=
  (findSimilarLawArticles ranked).foldl
    (fun t c =>
      if SIMILARITY_THRESHOLD ≤ c.similarity then
        saveLawRegulationLink t regulationId c.article_id c.law_id c.similarity now
      else t)
    table

/-! ## Text chunker (src/src/services/embedding.ts, `chunkText`)

The splitters below implement the two JS regex splits used by `chunkText`:
`text.split(/\n\n+/)` and `paragraph.split(/[.!?]\s+/)` (a delimiter is a
maximal match; all pieces, including empty ones, are kept, as JS `split`
does).  Whitespace is modelled as the ASCII whitespace characters. -/

/-- The whitespace class used for `\s` and `trim` (ASCII part). -/
def wsChar (c : Char) : Bool :=
  c = ' ' || c = '\t' || c = '\n' || c = '\r' || c = '\x0b' || c = '\x0c'

/-- JS `String.prototype.trim` on the character list. -/
def trimChars (l : List Char) : List Char :=
  ((l.dropWhile wsChar).reverse.dropWhile wsChar).reverse

/-- JS `String.prototype.trim`. -/
def jsTrim (s : String) : String := String.mk (trimChars s.toList)

/-- Splitter state machine for `split(/\n\n+/)`: `false` = accumulating a
piece into `acc`, `true` = consuming the newline run of a separator. -/
def spGo : Bool → List Char → List Char → List (List Char)
  | false, [], acc => [acc.reverse]
  | false, c :: rest, acc =>
    if c = '\n' then
      match rest with
      | [] => [(c :: acc).reverse]
      | c2 :: rest2 =>
        if c2 = '\n' then acc.reverse :: spGo true rest2 []
        else spGo false rest2 (c2 :: c :: acc)
    else spGo false rest (c :: acc)
  | true, [], _ => [[]]
  | true, c :: rest, _ =>
    if c = '\n' then spGo true rest []
    else spGo false rest [c]

/-- `text.split(/\n\n+/)` — the paragraph split of `chunkText`. -/
def splitParagraphs (s : String) : List String :=
  (spGo false s.toList []).map String.mk

/-- The sentence-delimiter class `[.!?]`. -/
def isSentEnd (c : Char) : Bool := c = '.' || c = '!' || c = '?'

/-- Splitter state machine for `split(/[.!?]\s+/)`: `false` = accumulating
a piece, `true` = consuming the whitespace run of a separator (where a new
delimiter may start immediately after). -/
def ssGo : Bool → List Char → List Char → List (List Char)
  | false, [], acc => [acc.reverse]
  | false, c :: rest, acc =>
    if isSentEnd c then
      match rest with
      | [] => [(c :: acc).reverse]
      | c2 :: rest2 =>
        if wsChar c2 then acc.reverse :: ssGo true rest2 []
        else ssGo false rest2 (c2 :: c :: acc)
    else ssGo false rest (c :: acc)
  | true, [], _ => [[]]
  | true, c :: rest, _ =>
    if wsChar c then ssGo true rest []
    else
      if isSentEnd c then
        match rest with
        | [] => [[c]]
        | c2 :: rest2 =>
          if wsChar c2 then [] :: ssGo true rest2 []
          else ssGo false rest2 (c2 :: [c])
      else ssGo false rest [c]

/-- `paragraph.split(/[.!?]\s+/)` — the sentence split of `chunkText`. -/
def splitSentences (s : String) : List String :=
  (ssGo false s.toList []).map String.mk

/-- Body of the inner `for (const sentence of sentences)` loop of
`chunkText`; the state is `(chunks, currentChunk)`. -/
def sentStep (maxChars : Nat) (st : List String × String) (s : String) :
    List String × String :=
  let (chunks, cc) := st
  if maxChars < (cc ++ s).length then
    (if cc ≠ "" then chunks ++ [jsTrim cc] else chunks, s)
  else
    (chunks, cc ++ (if cc ≠ "" then " " else "") ++ s)

/-- Body of the outer `for (const paragraph of paragraphs)` loop of
`chunkText`. -/
def paraStep (maxChars : Nat) (st : List String × String) (p : String) :
    List String × String :=
  let (chunks, cc) := st
  if maxChars < (cc ++ p).length then
    let chunks1 := if cc ≠ "" then chunks ++ [jsTrim cc] else chunks
    if maxChars < p.length then
      (splitSentences p).foldl (sentStep maxChars) (chunks1, "")
    else (chunks1, p)
  else
    (chunks, cc ++ (if cc ≠ "" then "\n\n" else "") ++ p)

/-- `chunkText(text, maxTokens = 8000)` from embedding.ts: returns the
whole text when it fits in `maxTokens * 4` characters, otherwise splits by
paragraphs (then sentences for over-long paragraphs) and accumulates. -/
def chunkText (text : String) (maxTokens : Nat := 8000) : List String :=
  let maxChars := maxTokens * 4
  if text.length ≤ maxChars then [text]
  else
    let st := (splitParagraphs text).foldl (paraStep maxChars) ([], "")
    if st.2 ≠ "" then st.1 ++ [jsTrim st.2] else st.1


/-! ## Diff detector (src/src/services/lawCrawler.ts, `compareArticles`) -/

/-- The `change_type` values emitted by `compareArticles`. -/
inductive ChangeType
  | added
  | modified
  | deleted
  deriving DecidableEq, Repr

/-- One element of the `ChangedArticle[]` result; fields the code does not
set stay `none` (JS `undefined`). -/
structure ChangedArticle where
  article_number : String
  change_type : ChangeType
  old_content : Option String := none
  new_content : Option String := none
  deriving DecidableEq, Repr

/-- JS `Map.prototype.set` semantics on an insertion-ordered association
list: an existing key keeps its position and gets the new value, a fresh
key is appended. -/
def mapInsert (m : List (String × Article)) (k : String) (v : Article) :
    List (String × Article) :=
  if m.any (fun p => p.1 = k) then
    m.map (fun p => if p.1 = k then (k, v) else p)
  else m ++ [(k, v)]

/-- `new Map(articles.map(a => [a.article_number, a]))`. -/
def mkArticleMap (l : List Article) : List (String × Article) :=
  l.foldl (fun m a => mapInsert m a.article_number a) []

/-- JS `Map.prototype.get`. -/
def mapGet (m : List (String × Article)) (k : String) : Option Article :=
  (m.find? (fun p => p.1 = k)).map Prod.snd

/-- JS `Map.prototype.has`. -/
def mapHas (m : List (String × Article)) (k : String) : Bool :=
  m.any (fun p => p.1 = k)

/-- `compareArticles(oldArticles, newArticles)`: walk the new map emitting
`added`/`modified`, then the old map emitting `deleted`. -/
def compareArticles (oldArticles newArticles : List Article) :
    List ChangedArticle :=
  let oldMap := mkArticleMap oldArticles
  let newMap := mkArticleMap newArticles
  let changes1 := newMap.filterMap (fun kv =>
    match mapGet oldMap kv.1 with
    | none =>
      some { article_number := kv.1, change_type := .added,
             new_content := some kv.2.article_content }
    | some oldArticle =>
      if oldArticle.article_content ≠ kv.2.article_content then
        some { article_number := kv.1, change_type := .modified,
               old_content := some oldArticle.article_content,
               new_content := some kv.2.article_content }
      else none)
  let changes2 := oldMap.filterMap (fun kv =>
    if mapHas newMap kv.1 then none
    else some { article_number := kv.1, change_type := .deleted,
                old_content := some kv.2.article_content })
  changes1 ++ changes2

/-! ## Cosine similarity (embedding.ts and geminiEmbedding.ts)

`Math.sqrt` is passed in as `sqrt : ℚ → ℚ`; the theorems assume of it only
`sqrt 0 = 0`, which holds of the real square root. -/

/-- The accumulation loop of both `cosineSimilarity` implementations:
`(dotProduct, norm1², norm2²)` summed over the common indices. -/
def cosSimLoop (e1 e2 : List ℚ) : ℚ × ℚ × ℚ :=
  (e1.zip e2).foldl
    (fun acc xy => (acc.1 + xy.1 * xy.2, acc.2.1 + xy.1 * xy.1, acc.2.2 + xy.2 * xy.2))
    (0, 0, 0)

/-- `cosineSimilarity` from embedding.ts: throws on a length mismatch,
returns `0` when either magnitude is zero, else the normalized dot
product. -/
def cosineSimilarity (sqrt : ℚ → ℚ) (embedding1 embedding2 : List ℚ) :
    Except String ℚ :=
  if embedding1.length ≠ embedding2.length then
    .error "Embeddings must have the same length"
  else
    let s := cosSimLoop embedding1 embedding2
    let norm1 := sqrt s.2.1
    let norm2 := sqrt s.2.2
    if norm1 = 0 ∨ norm2 = 0 then .ok 0
    else .ok (s.1 / (norm1 * norm2))

/-- `cosineSimilarity` from geminiEmbedding.ts: identical computation, its
own error message. -/
def geminiCosineSimilarity (sqrt : ℚ → ℚ) (embedding1 embedding2 : List ℚ) :
    Except String ℚ :=
  if embedding1.length ≠ embedding2.length then
    .error "Embeddings must have the same dimension"
  else
    let s := cosSimLoop embedding1 embedding2
    let magnitude1 := sqrt s.2.1
    let magnitude2 := sqrt s.2.2
    if magnitude1 = 0 ∨ magnitude2 = 0 then .ok 0
    else .ok (s.1 / (magnitude1 * magnitude2))

/-! ## Impact analyzer (src/src/services/aiAnalysis.ts, unnamed/part_003) -/

/-- A parsed JSON value, as far as the analyzed code inspects one. -/
inductive JsonValue
  | str (s : String)
  | num (q : ℚ)
  | boolean (b : Bool)
  | null
  deriving DecidableEq, Repr

/-- A parsed JSON object: field-name/value pairs. -/
abbrev JsonObject := List (String × JsonValue)

/-- JS property access `obj.field` on a parsed object: `none` is
`undefined`. -/
def jsonGet (obj : JsonObject) (k : String) : Option JsonValue :=
  (obj.find? (fun p => p.1 = k)).map Prod.snd

/-- The object `analyzeLawImpact` returns: each field holds whatever the
parsed JSON had at that name (`none` = JS `undefined`); the `as` casts in
the source check nothing. -/
structure ImpactAnalysisResultJS where
  impact_level : Option JsonValue
  impact_type : Option JsonValue
  change_summary : Option JsonValue
  ai_recommendation : Option JsonValue
  confidence_score : Option JsonValue
  reasoning : Option JsonValue
  deriving DecidableEq, Repr

/-- The response-handling tail of `analyzeLawImpact`: `parsed` is the
outcome of `JSON.parse(content)` (`none` = the parse threw, caught by the
surrounding `try` which returns `null`).  On a successful parse the six
fields are copied out with no validation. -/
def analyzeLawImpactResult (parsed : Option JsonObject) :
    Option ImpactAnalysisResultJS :=
  match parsed with
  | none => none
  | some result =>
    some { impact_level := jsonGet result "impact_level",
           impact_type := jsonGet result "impact_type",
           change_summary := jsonGet result "change_summary",
           ai_recommendation := jsonGet result "ai_recommendation",
           confidence_score := jsonGet result "confidence_score",
           reasoning := jsonGet result "reasoning" }

/-- The response-handling tail of `analyzeGeminiImpact` (unnamed/part_003):
additionally rejects a missing/empty `content` (`if (!content) return
null`), then behaves like `analyzeLawImpactResult`; `parse` models
`JSON.parse`. -/
def analyzeGeminiImpactResult (content : Option String)
    (parse : String → Option JsonObject) : Option ImpactAnalysisResultJS :=
  match content with
  | none => none
  | some s => if s = "" then none else analyzeLawImpactResult (parse s)

/-- An `AnalysisRequest` (aiAnalysis.ts): `oldArticle` may be `null`. -/
structure AnalysisRequest where
  lawName : String
  revisionDate : String
  oldArticle : Option Article
  newArticle : Article
  regulationName : String
  regulationArticle : RegulationArticle
  deriving DecidableEq, Repr

/-- `batchAnalyzeImpacts(requests, apiKey, onProgress)`: a sequential loop
pushing each per-item outcome (`analyze` models `analyzeLawImpact`, whose
`try/catch` makes it total, returning `null` on any failure) and invoking
the progress callback with `(i + 1, requests.length)`.  The second
component records the arguments of the `onProgress` calls in order. -/
def batchAnalyzeImpacts
    (analyze : AnalysisRequest → Option ImpactAnalysisResultJS)
    (requests : List AnalysisRequest) :
    List (Option ImpactAnalysisResultJS) × List (Nat × Nat) :=
  requests.enum.foldl
    (fun st ir => (st.1 ++ [analyze ir.2], st.2 ++ [(ir.1 + 1, requests.length)]))
    ([], [])

/-! ## Heuristic pre-filter (aiAnalysis.ts, `quickHeuristicAnalysis`) -/

/-- `a == b` as a prefix test: does `l` start with `sub`? -/
def leadsWith : List Char → List Char → Bool
  | [], _ => true
  | _ :: _, [] => false
  | a :: as, b :: bs => a = b && leadsWith as bs

/-- Substring occurrence on character lists. -/
def hasInfix : List Char → List Char → Bool
  | [], sub => sub.isEmpty
  | c :: rest, sub => leadsWith sub (c :: rest) || hasInfix rest sub

/-- JS `String.prototype.includes`. -/
def strIncludes (s sub : String) : Bool := hasInfix s.toList sub.toList

/-- The keyword list `importantKeywords` of `quickHeuristicAnalysis`. -/
def importantKeywords : List String :=
  ["의무", "금지", "벌칙", "과태료", "처벌", "벌금",
   "기한", "절차", "승인", "허가", "신고",
   "범위", "대상", "제외", "포함"]

/-- The `{ shouldAnalyze, reason }` result of the heuristic filter. -/
structure HeuristicResult where
  shouldAnalyze : Bool
  reason : String
  deriving DecidableEq, Repr

/-- `quickHeuristicAnalysis(oldArticle, newArticle, regulationArticle)`. -/
def quickHeuristicAnalysis (oldArticle : Option Article)
    (newArticle : Article) (regulationArticle : RegulationArticle) :
    HeuristicResult :=
  match oldArticle with
  | none => { shouldAnalyze := true, reason := "New article added" }
  | some oldA =>
    let contentChanged := oldA.article_content ≠ newArticle.article_content
    if ¬contentChanged then
      { shouldAnalyze := false, reason := "No content change" }
    else
      let oldContent := oldA.article_content
      let newContent := newArticle.article_content
      let regContent := regulationArticle.article_content
      let articleRef := "제" ++ newArticle.article_number ++ "조"
      let hasReference := strIncludes regContent articleRef
      if ¬hasReference then
        let hasSharedKeywords := importantKeywords.any (fun keyword =>
          (strIncludes oldContent keyword || strIncludes newContent keyword)
            && strIncludes regContent keyword)
        if ¬hasSharedKeywords then
          { shouldAnalyze := false,
            reason := "No direct reference or shared keywords" }
        else
          { shouldAnalyze := true,
            reason := if contentChanged then "Significant content change detected"
                      else "Direct reference found" }
      else
        { shouldAnalyze := true,
          reason := if contentChanged then "Significant content change detected"
                    else "Direct reference found" }

/-! ## Batch embeddings (embedding.ts, `generateBatchEmbeddings`) -/

/-- `BATCH_SIZE = 100` from `generateBatchEmbeddings`. -/
def BATCH_SIZE : Nat := 100

/-- Collect a list of optional values; `none` as soon as one is `none`
(one failed item fails the whole HTTP batch). -/
def allSome {α : Type} : List (Option α) → Option (List α)
  | [] => some []
  | none :: _ => none
  | some a :: rest => (allSome rest).map (a :: ·)

/-- The `for (let i = 0; i < validTexts.length; i += BATCH_SIZE)` loop:
process `BATCH_SIZE`-sized slices, concatenating the per-batch embedding
lists; a failing batch fails everything.  `fuel` bounds the rounds (each
round consumes at least one text, so `l.length` rounds always suffice; the
fuel-exhausted case is unreachable from `batchEmbedLoop`). -/
def batchEmbedGo (provider : String → Option (List ℚ)) :
    Nat → List String → Option (List (List ℚ))
  | _, [] => some []
  | 0, _ :: _ => none
  | fuel + 1, t :: rest =>
    let batch := (t :: rest).take BATCH_SIZE
    match allSome (batch.map provider) with
    | none => none
    | some batchEmbeddings =>
      (batchEmbedGo provider fuel ((t :: rest).drop BATCH_SIZE)).map
        (batchEmbeddings ++ ·)

/-- The batching loop at its actual entry point. -/
def batchEmbedLoop (provider : String → Option (List ℚ))
    (l : List String) : Option (List (List ℚ)) :=
  batchEmbedGo provider l.length l

/-- `generateBatchEmbeddings(texts, apiKey)`: rejects an empty input
array, silently filters out blank texts (`t && t.trim().length > 0`),
rejects an all-blank input, then runs the batching loop; `provider` models
one text's embedding from the HTTP response (`none` = upstream failure). -/
def generateBatchEmbeddings (provider : String → Option (List ℚ))
    (texts : List String) : Except String (List (List ℚ)) :=
  if texts.length = 0 then .error "Texts array cannot be empty"
  else
    let validTexts := texts.filter (fun t => jsTrim t ≠ "")
    if validTexts.length = 0 then .error "No valid texts to process"
    else
      match batchEmbedLoop provider validTexts with
      | none => .error "Failed to generate embeddings"
      | some embeddings => .ok embeddings

/-! ## General helper lemmas -/

theorem string_ne_empty_iff_length {s : String} : s ≠ "" ↔ s.length ≠ 0 := by
  constructor
  · intro h hl
    apply h
    cases s with
    | mk d =>
      have hd : d = [] := List.length_eq_zero.mp hl
      rw [hd]
  · intro h he
    subst he
    exact h rfl

theorem string_append_ne_of_left {a : String} (h : a ≠ "") (b : String) :
    a ++ b ≠ "" := by
  rw [string_ne_empty_iff_length, String.length_append]
  rw [string_ne_empty_iff_length] at h
  omega

theorem string_append_ne_of_right (a : String) {b : String} (h : b ≠ "") :
    a ++ b ≠ "" := by
  rw [string_ne_empty_iff_length, String.length_append]
  rw [string_ne_empty_iff_length] at h
  omega

/-! ## C1 — linkage builder idempotence -/

/-- C1: the claim fails on the code, which contradicts its own
`ON CONFLICT (link_id) DO UPDATE` clause: the derived link key embeds
`Date.now()`, so it is *not* a function of the two endpoint IDs only.
Re-running `saveLawRegulationLink` for the same (statute-article,
regulation) pair at a later clock value derives a fresh key, never hits
the conflict branch, and inserts a second row for the pair instead of
updating `confidence_score`. -/
theorem c1_rerun_duplicates_link :
    linkIdOf "reg1" "art1" 100 ≠ linkIdOf "reg1" "art1" 200 ∧
    (saveLawRegulationLink
        (saveLawRegulationLink [] "reg1" "art1" "law1" (7/10) 100)
        "reg1" "art1" "law1" (7/10) 200).length = 2 ∧
    ((saveLawRegulationLink
        (saveLawRegulationLink [] "reg1" "art1" "law1" (7/10) 100)
        "reg1" "art1" "law1" (7/10) 200).filter
      (fun r => r.regulation_id == "reg1" && r.article_id == "art1")).length = 2 := by
  refine ⟨by decide, by decide, by decide⟩

/-! ## C4 — chunk bound -/

/-- C4: the chunk bound fails on the code even though no single sentence
(or paragraph) exceeds the limit: `chunkText` checks
`(currentChunk + paragraph).length > maxChars` but then joins with a
2-character `"\n\n"` separator it never counted, so for
`text = "ab\n\ncd"` and `maxTokens = 1` (`maxChars = 4`) it emits the
single 6-character chunk `"ab\n\ncd"`, whose estimated token count
`6 / 4` exceeds `maxTokens`, while every paragraph and sentence of the
text has length at most 4. -/
theorem c4_chunk_exceeds_bound :
    chunkText "ab\n\ncd" 1 = ["ab\n\ncd"] ∧
    1 * 4 < ("ab\n\ncd" : String).length ∧
    (splitParagraphs "ab\n\ncd").all (fun p => p.length ≤ 1 * 4) = true ∧
    (splitParagraphs "ab\n\ncd").all
      (fun p => (splitSentences p).all (fun s => s.length ≤ 1 * 4)) = true := by
  refine ⟨by decide, by decide, by decide, by decide⟩

/-! ## C5 — chunker totality / non-emptiness -/

/-- C5 counterexample: a whitespace-only text longer than the limit
(`"\n\n\n\n\n"`, five newlines, with `maxTokens = 1` so `maxChars = 4`)
splits into only empty paragraphs and `chunkText` returns *zero* chunks,
refuting "any text produces at least one chunk". -/
theorem c5_whitespace_only_counterexample :
    1 * 4 < ("\n\n\n\n\n" : String).length ∧ chunkText "\n\n\n\n\n" 1 = [] := by
  refine ⟨by decide, by decide⟩

/-! ## C7 — impact-analysis parse failures -/

/-- C7 counterexample: a provider response that parses as the JSON object
`{}` — lacking **every** required field — is returned by
`analyzeLawImpact` as a *success* whose six fields are all `undefined`;
the code performs no field validation, so "missing required field ⇒
reported as failed" is false. -/
theorem c7_missing_fields_counterexample :
    analyzeLawImpactResult (some []) ≠ none ∧
    analyzeLawImpactResult (some []) =
      some { impact_level := none, impact_type := none, change_summary := none,
             ai_recommendation := none, confidence_score := none,
             reasoning := none } := by
  refine ⟨by decide, rfl⟩

/-- C7 (amended): a JSON **parse failure** is reported as a failed
analysis (`null`), and for the Gemini variant so is a missing or empty
response content — these are exactly the failure conditions; a response
that parses but lacks required fields is *not* reported as failed. -/
theorem c7_failure_iff_parse_failure :
    (∀ parsed, analyzeLawImpactResult parsed = none ↔ parsed = none) ∧
    (∀ (content : Option String) (parse : String → Option JsonObject),
      analyzeGeminiImpactResult content parse = none ↔
        content = none ∨ content = some "" ∨
        ∃ s, content = some s ∧ s ≠ "" ∧ parse s = none) := by
  constructor
  · intro parsed
    cases parsed <;> simp [analyzeLawImpactResult]
  · intro content parse
    cases content with
    | none => simp [analyzeGeminiImpactResult]
    | some s =>
      by_cases hs : s = ""
      · subst hs
        simp [analyzeGeminiImpactResult]
      · cases hp : parse s with
        | none =>
          simp [analyzeGeminiImpactResult, hs, analyzeLawImpactResult, hp]
        | some obj =>
          simp [analyzeGeminiImpactResult, hs, analyzeLawImpactResult, hp]

/-! ## C9 — heuristic pre-filter negative case -/

/-- C9: with a non-null old article, byte-identical contents always give
`shouldAnalyze = false` ("No content change"); and for any pair whose
regulation text contains the direct reference `제<number>조` or shares an
important keyword with the statute content, identical content is the
*only* way the filter answers `false`. -/
theorem c9_identical_content_only_negative (oldA newA : Article)
    (regA : RegulationArticle) :
    (oldA.article_content = newA.article_content →
      quickHeuristicAnalysis (some oldA) newA regA =
        { shouldAnalyze := false, reason := "No content change" }) ∧
    ((strIncludes regA.article_content ("제" ++ newA.article_number ++ "조") = true ∨
      importantKeywords.any (fun keyword =>
        (strIncludes oldA.article_content keyword
          || strIncludes newA.article_content keyword)
          && strIncludes regA.article_content keyword) = true) →
      ((quickHeuristicAnalysis (some oldA) newA regA).shouldAnalyze = false ↔
        oldA.article_content = newA.article_content)) := by
  constructor
  · intro h
    simp [quickHeuristicAnalysis, h]
  · intro href
    by_cases hc : oldA.article_content = newA.article_content
    · simp [quickHeuristicAnalysis, hc]
    · simp only [quickHeuristicAnalysis, hc]
      rcases href with h | h
      · simp [h, hc]
      · by_cases hr :
          strIncludes regA.article_content ("제" ++ newA.article_number ++ "조") = true
        · simp [hr, hc]
        · simp [hr, h, hc]

/-- C9 witness: a concrete identical-content pair is filtered out, and a
concrete pair with a direct reference and changed content is kept. -/
theorem c9_witness :
    quickHeuristicAnalysis (some ⟨"1", "t", "내용"⟩) ⟨"1", "t", "내용"⟩
        ⟨"5", "r", "제1조에 따라"⟩ =
      { shouldAnalyze := false, reason := "No content change" } ∧
    (quickHeuristicAnalysis (some ⟨"1", "t", "내용"⟩) ⟨"1", "t", "개정"⟩
        ⟨"5", "r", "제1조에 따라"⟩).shouldAnalyze = true := by
  constructor
  · exact (c9_identical_content_only_negative _ _ _).1 rfl
  · have h := (c9_identical_content_only_negative ⟨"1", "t", "내용"⟩ ⟨"1", "t", "개정"⟩
      ⟨"5", "r", "제1조에 따라"⟩).2 (Or.inl (by decide))
    cases hb : (quickHeuristicAnalysis (some ⟨"1", "t", "내용"⟩) ⟨"1", "t", "개정"⟩
        ⟨"5", "r", "제1조에 따라"⟩).shouldAnalyze
    · exact absurd (h.mp hb) (by decide)
    · rfl

/-! ## C6 — cosine similarity error/zero behaviour -/

theorem cosSimLoop_eq (e1 e2 : List ℚ) :
    cosSimLoop e1 e2 =
      (((e1.zip e2).map (fun xy => xy.1 * xy.2)).sum,
       ((e1.zip e2).map (fun xy => xy.1 * xy.1)).sum,
       ((e1.zip e2).map (fun xy => xy.2 * xy.2)).sum) := by
  have key : ∀ (l : List (ℚ × ℚ)) (a b c : ℚ),
      l.foldl (fun acc xy =>
          (acc.1 + xy.1 * xy.2, acc.2.1 + xy.1 * xy.1, acc.2.2 + xy.2 * xy.2))
        (a, b, c)
        = (a + (l.map (fun xy => xy.1 * xy.2)).sum,
           b + (l.map (fun xy => xy.1 * xy.1)).sum,
           c + (l.map (fun xy => xy.2 * xy.2)).sum) := by
    intro l
    induction l with
    | nil => intro a b c; simp
    | cons x t ih => intro a b c; simp [ih, add_assoc]
  simpa [cosSimLoop] using key (e1.zip e2) 0 0 0

theorem zip_sq_sum_left_zero {e1 e2 : List ℚ} (h : ∀ x ∈ e1, x = 0) :
    ((e1.zip e2).map (fun xy => xy.1 * xy.1)).sum = 0 := by
  apply List.sum_eq_zero
  intro x hx
  rcases List.mem_map.mp hx with ⟨xy, hxy, rfl⟩
  have h1 := (List.of_mem_zip hxy).1
  rw [h _ h1]
  ring

theorem zip_sq_sum_right_zero {e1 e2 : List ℚ} (h : ∀ x ∈ e2, x = 0) :
    ((e1.zip e2).map (fun xy => xy.2 * xy.2)).sum = 0 := by
  apply List.sum_eq_zero
  intro x hx
  rcases List.mem_map.mp hx with ⟨xy, hxy, rfl⟩
  have h2 := (List.of_mem_zip hxy).2
  rw [h _ h2]
  ring

/-- C6: both `cosineSimilarity` implementations raise their
dimension-mismatch error exactly when the vector lengths differ, and with
equal lengths a zero-magnitude vector on either side yields exactly `0`
(an `ok`, not an error).  `sqrt` models `Math.sqrt`; only `sqrt 0 = 0` is
assumed of it. -/
theorem c6_cosine_similarity (sqrt : ℚ → ℚ) (h0 : sqrt 0 = 0)
    (e1 e2 : List ℚ) :
    (e1.length ≠ e2.length →
      cosineSimilarity sqrt e1 e2 = .error "Embeddings must have the same length" ∧
      geminiCosineSimilarity sqrt e1 e2 =
        .error "Embeddings must have the same dimension") ∧
    (e1.length = e2.length →
      (∃ q, cosineSimilarity sqrt e1 e2 = .ok q) ∧
      (∃ q, geminiCosineSimilarity sqrt e1 e2 = .ok q)) ∧
    (e1.length = e2.length →
      ((∀ x ∈ e1, x = 0) ∨ (∀ x ∈ e2, x = 0)) →
      cosineSimilarity sqrt e1 e2 = .ok 0 ∧
      geminiCosineSimilarity sqrt e1 e2 = .ok 0) := by
  refine ⟨?_, ?_, ?_⟩
  · intro h
    constructor <;> simp [cosineSimilarity, geminiCosineSimilarity, h]
  · intro h
    constructor
    · simp only [cosineSimilarity, h, ne_eq, not_true_eq_false, if_false]
      split
      · exact ⟨0, rfl⟩
      · exact ⟨_, rfl⟩
    · simp only [geminiCosineSimilarity, h, ne_eq, not_true_eq_false, if_false]
      split
      · exact ⟨0, rfl⟩
      · exact ⟨_, rfl⟩
  · intro hlen hz
    rcases hz with hz | hz
    · have h1 : (cosSimLoop e1 e2).2.1 = 0 := by
        rw [cosSimLoop_eq]
        exact zip_sq_sum_left_zero hz
      constructor <;>
        simp [cosineSimilarity, geminiCosineSimilarity, hlen, h1, h0]
    · have h2 : (cosSimLoop e1 e2).2.2 = 0 := by
        rw [cosSimLoop_eq]
        exact zip_sq_sum_right_zero hz
      constructor <;>
        simp [cosineSimilarity, geminiCosineSimilarity, hlen, h2, h0]

/-- C6 witness: at `sqrt = id`, a zero vector against `[3, 4]` returns
exactly `0`, and a `1` vs `2`-dimensional pair raises the mismatch
error. -/
theorem c6_witness :
    cosineSimilarity (fun x => x) [0, 0] [3, 4] = .ok 0 ∧
    cosineSimilarity (fun x => x) [1] [1, 2] =
      .error "Embeddings must have the same length" := by
  constructor
  · exact ((c6_cosine_similarity (fun x => x) rfl [0, 0] [3, 4]).2.2 rfl
      (Or.inl (by intro x hx; simpa using hx))).1
  · exact ((c6_cosine_similarity (fun x => x) rfl [1] [1, 2]).1 (by decide)).1

/-! ## C8 — batch impact analysis -/

theorem batchAnalyze_go (analyze : AnalysisRequest → Option ImpactAnalysisResultJS)
    (total : Nat) :
    ∀ (l : List AnalysisRequest) (k : Nat)
      (acc : List (Option ImpactAnalysisResultJS) × List (Nat × Nat)),
      (List.enumFrom k l).foldl
          (fun st ir => (st.1 ++ [analyze ir.2], st.2 ++ [(ir.1 + 1, total)])) acc
        = (acc.1 ++ l.map analyze,
           acc.2 ++ (List.range l.length).map (fun i => (k + i + 1, total))) := by
  intro l
  induction l with
  | nil => intro k acc; simp
  | cons a t ih =>
    intro k acc
    rw [List.enumFrom_cons, List.foldl_cons, ih]
    simp only [List.length_cons, List.range_succ_eq_map, List.map_cons,
      List.map_map, List.append_assoc, List.singleton_append, List.map_cons,
      Prod.mk.injEq]
    refine ⟨by simp, ?_⟩
    have : (List.range t.length).map ((fun i => (k + i + 1, total)) ∘ Nat.succ)
        = (List.range t.length).map (fun i => (k + 1 + i + 1, total)) := by
      apply List.map_congr_left
      intro i _
      simp [Function.comp, Prod.ext_iff]
      omega
    rw [this]

/-- C8: the batch analyzer returns one slot per request, in request
order, each slot holding exactly the per-item outcome (`none` for a
failed provider call or unparseable response — so one failure cannot
abort the rest), and the progress callback is invoked once per item with
`(completed, total)` in order. -/
theorem c8_batch_per_item (analyze : AnalysisRequest → Option ImpactAnalysisResultJS)
    (requests : List AnalysisRequest) :
    (batchAnalyzeImpacts analyze requests).1 = requests.map analyze ∧
    (batchAnalyzeImpacts analyze requests).1.length = requests.length ∧
    (batchAnalyzeImpacts analyze requests).2 =
      (List.range requests.length).map (fun i => (i + 1, requests.length)) := by
  have h := batchAnalyze_go analyze requests.length requests 0 ([], [])
  unfold batchAnalyzeImpacts
  rw [show requests.enum = List.enumFrom 0 requests from rfl, h]
  simp

/-! ## C3 — linkage threshold and top-N bound -/

theorem save_fresh (table : List LinkRow) (r a law : String) (sim : ℚ) (now : Nat)
    (h : table.any (fun row => row.link_id = linkIdOf r a now) = false) :
    saveLawRegulationLink table r a law sim now =
      table ++ [{ link_id := linkIdOf r a now, law_id := law,
                  regulation_id := r, article_id := a, confidence_score := sim,
                  link_type := "근거법령", verified := false,
                  created_at := now }] := by
  simp [saveLawRegulationLink, h]

theorem processLoop_eq (regId : String) (now : Nat) :
    ∀ (cs : List Candidate) (table : List LinkRow),
      (∀ c ∈ cs,
        table.any (fun r => r.link_id = linkIdOf regId c.article_id now) = false) →
      ((cs.map (fun c => linkIdOf regId c.article_id now)).Nodup) →
      cs.foldl (fun t c =>
          if SIMILARITY_THRESHOLD ≤ c.similarity then
            saveLawRegulationLink t regId c.article_id c.law_id c.similarity now
          else t) table
        = table ++ (cs.filter (fun c => SIMILARITY_THRESHOLD ≤ c.similarity)).map
            (mkLinkRow regId now) := by
  intro cs
  induction cs with
  | nil => intro table _ _; simp
  | cons c t ih =>
    intro table hfresh hnodup
    have hnodup' := List.nodup_cons.mp
      (show (linkIdOf regId c.article_id now
          :: t.map fun c => linkIdOf regId c.article_id now).Nodup from hnodup)
    rw [List.foldl_cons]
    by_cases hth : SIMILARITY_THRESHOLD ≤ c.similarity
    · rw [if_pos hth, save_fresh _ _ _ _ _ _ (hfresh c (List.mem_cons_self _ _))]
      rw [ih _ ?fresh ?nodup]
      · rw [List.filter_cons, if_pos (by simpa using hth)]
        simp [mkLinkRow]
      case fresh =>
        intro c' hc'
        rw [List.any_append, hfresh c' (List.mem_cons_of_mem _ hc')]
        simp only [Bool.false_or, List.any_cons, List.any_nil, Bool.or_false]
        have hne : ¬(linkIdOf regId c.article_id now
            = linkIdOf regId c'.article_id now) := by
          intro he
          exact hnodup'.1 (he ▸ List.mem_map_of_mem _ hc')
        simpa using hne
      case nodup => exact hnodup'.2
    · rw [if_neg hth, List.filter_cons, if_neg (by simpa using hth)]
      exact ih table (fun c' hc' => hfresh c' (List.mem_cons_of_mem _ hc')) hnodup'.2

/-- C3: per regulation, the builder considers at most `TOP_N_MATCHES = 5`
candidates (`LIMIT 5`), and the per-regulation pass appends exactly the
rows of the considered candidates with `similarity ≥ SIMILARITY_THRESHOLD
= 0.65`; below-threshold candidates leave the table untouched.  The
hypotheses say the generated link keys are fresh (no pre-existing row and
no duplicated candidate key), which is how the builder runs (distinct
`article_id`s from the query, first run or changed timestamp). -/
theorem c3_threshold_and_topN (regId : String) (now : Nat)
    (table : List LinkRow) (ranked : List Candidate)
    (hfresh : ∀ c ∈ findSimilarLawArticles ranked,
      table.any (fun r => r.link_id = linkIdOf regId c.article_id now) = false)
    (hnodup : ((findSimilarLawArticles ranked).map
      (fun c => linkIdOf regId c.article_id now)).Nodup) :
    (findSimilarLawArticles ranked).length ≤ TOP_N_MATCHES ∧
    processRegulationLinks regId now table ranked =
      table ++ ((findSimilarLawArticles ranked).filter
        (fun c => SIMILARITY_THRESHOLD ≤ c.similarity)).map (mkLinkRow regId now) := by
  exact ⟨List.length_take_le _ _,
    processLoop_eq regId now (findSimilarLawArticles ranked) table hfresh hnodup⟩

/-- C3 witness (the spec's boundary scenario): of two fresh candidates
with similarity exactly `0.65` and `0.649`, exactly the first is
persisted. -/
theorem c3_witness :
    processRegulationLinks "reg" 0 []
        [⟨"artH", "lawH", "1", "t", "c", "l", 65/100⟩,
         ⟨"artL", "lawL", "2", "t", "c", "l", 649/1000⟩]
      = [mkLinkRow "reg" 0 ⟨"artH", "lawH", "1", "t", "c", "l", 65/100⟩] := by
  have h := (c3_threshold_and_topN "reg" 0 []
      [⟨"artH", "lawH", "1", "t", "c", "l", 65/100⟩,
       ⟨"artL", "lawL", "2", "t", "c", "l", 649/1000⟩]
      (fun c _ => rfl) (by decide)).2
  rw [h]
  rw [show findSimilarLawArticles
      [⟨"artH", "lawH", "1", "t", "c", "l", 65/100⟩,
       ⟨"artL", "lawL", "2", "t", "c", "l", 649/1000⟩]
    = [⟨"artH", "lawH", "1", "t", "c", "l", 65/100⟩,
       ⟨"artL", "lawL", "2", "t", "c", "l", 649/1000⟩] from rfl]
  rw [List.filter_cons, List.filter_cons,
    if_pos (by norm_num [SIMILARITY_THRESHOLD]),
    if_neg (by norm_num [SIMILARITY_THRESHOLD])]
  simp

/-! ## C10 — batch embeddings drop blank inputs -/

theorem allSome_append {α : Type} (xs ys : List (Option α)) :
    allSome (xs ++ ys)
      = (allSome xs).bind (fun as => (allSome ys).map (as ++ ·)) := by
  induction xs with
  | nil =>
    cases h : allSome ys <;> simp [allSome, h]
  | cons x t ih =>
    cases x with
    | none => simp [allSome]
    | some a =>
      cases h1 : allSome t <;> cases h2 : allSome ys <;>
        simp [allSome, ih, h1, h2, Option.map_map, Function.comp, List.cons_append]

theorem allSome_some_length {α : Type} :
    ∀ (xs : List (Option α)) (as : List α),
      allSome xs = some as → as.length = xs.length := by
  intro xs
  induction xs with
  | nil => intro as h; simp [allSome] at h; simp [← h]
  | cons x t ih =>
    intro as h
    cases x with
    | none => simp [allSome] at h
    | some a =>
      simp only [allSome] at h
      cases h1 : allSome t with
      | none => rw [h1] at h; simp at h
      | some ts =>
        rw [h1] at h
        simp at h
        rw [← h]
        simp [ih ts h1]

theorem batchEmbedGo_eq (provider : String → Option (List ℚ)) :
    ∀ (fuel : Nat) (l : List String), l.length ≤ fuel →
      batchEmbedGo provider fuel l = allSome (l.map provider) := by
  intro fuel
  induction fuel with
  | zero =>
    intro l hl
    have : l = [] := List.eq_nil_of_length_eq_zero (Nat.le_zero.mp hl)
    subst this
    rfl
  | succ n ih =>
    intro l hl
    cases l with
    | nil => rfl
    | cons t rest =>
      have hdrop : ((t :: rest).drop BATCH_SIZE).length ≤ n := by
        simp only [List.length_drop, List.length_cons, BATCH_SIZE]
        simp only [List.length_cons] at hl
        omega
      simp only [batchEmbedGo, ih _ hdrop]
      conv_rhs => rw [← List.take_append_drop BATCH_SIZE (t :: rest)]
      rw [List.map_append, allSome_append]
      cases h1 : allSome (((t :: rest).take BATCH_SIZE).map provider) <;> simp [h1]

/-- C10 (implicit): `generateBatchEmbeddings` silently filters out blank
texts, so a success carries exactly one embedding per non-blank input (in
filtered order, against `provider`), and whenever some input is blank the
output is strictly shorter than the input — there is no `null`
placeholder, so positions no longer align. -/
theorem c10_blank_texts_dropped (provider : String → Option (List ℚ))
    (texts : List String) (embeddings : List (List ℚ))
    (h : generateBatchEmbeddings provider texts = .ok embeddings) :
    embeddings.length = (texts.filter (fun t => jsTrim t ≠ "")).length ∧
    allSome ((texts.filter (fun t => jsTrim t ≠ "")).map provider) = some embeddings ∧
    ((∃ t ∈ texts, jsTrim t = "") → embeddings.length < texts.length) := by
  unfold generateBatchEmbeddings at h
  by_cases h0 : texts.length = 0
  · rw [if_pos h0] at h
    exact absurd h (by simp)
  · rw [if_neg h0] at h
    by_cases h1 : (texts.filter (fun t => jsTrim t ≠ "")).length = 0
    · rw [if_pos h1] at h
      exact absurd h (by simp)
    · rw [if_neg h1] at h
      have hloop := batchEmbedGo_eq provider
        (texts.filter (fun t => jsTrim t ≠ "")).length
        (texts.filter (fun t => jsTrim t ≠ "")) le_rfl
      rw [batchEmbedLoop] at h
      rw [hloop] at h
      cases ha : allSome ((texts.filter (fun t => jsTrim t ≠ "")).map provider) with
      | none =>
        rw [ha] at h
        exact absurd h (by simp)
      | some es =>
        rw [ha] at h
        simp only [Except.ok.injEq] at h
        subst h
        have hlen : es.length = (texts.filter (fun t => jsTrim t ≠ "")).length := by
          have := allSome_some_length _ _ ha
          simpa using this
        refine ⟨hlen, rfl, ?_⟩
        intro hblank
        rcases hblank with ⟨t, ht, htr⟩
        have hlt : (texts.filter (fun t => jsTrim t ≠ "")).length < texts.length :=
          List.length_filter_lt_length_iff_exists.mpr ⟨t, ht, by simp [htr]⟩
        omega

/-- C10 witness: for inputs `["a", " ", "b"]` with a constant successful
provider, the blank `" "` is dropped and the success carries 2 < 3
embeddings. -/
theorem c10_witness :
    (∃ t ∈ (["a", " ", "b"] : List String), jsTrim t = "") ∧
    ([[1], [1]] : List (List ℚ)).length < (["a", " ", "b"] : List String).length := by
  refine ⟨⟨" ", by decide, by decide⟩, ?_⟩
  exact (c10_blank_texts_dropped (fun _ => some [1]) ["a", " ", "b"] [[1], [1]]
    rfl).2.2 ⟨" ", by decide, by decide⟩

/-! ## C5 (continued) — when the chunker does return a chunk -/

theorem if_push_chunks (chunks : List String) (cc : String) :
    (if cc ≠ "" then chunks ++ [jsTrim cc] else chunks)
      = chunks ++ (if cc ≠ "" then [jsTrim cc] else []) := by
  split <;> simp

theorem sentStep_chunks_extend (m : Nat) (st : List String × String) (s : String) :
    ∃ l, (sentStep m st s).1 = st.1 ++ l := by
  rcases st with ⟨chunks, cc⟩
  simp only [sentStep]
  split
  · exact ⟨if cc ≠ "" then [jsTrim cc] else [],
      by by_cases hcc : cc = "" <;> simp [hcc]⟩
  · exact ⟨[], by simp⟩

theorem sentFold_chunks_extend (m : Nat) :
    ∀ (ss : List String) (st : List String × String),
      ∃ l, (ss.foldl (sentStep m) st).1 = st.1 ++ l := by
  intro ss
  induction ss with
  | nil => intro st; exact ⟨[], by simp⟩
  | cons s t ih =>
    intro st
    rw [List.foldl_cons]
    rcases ih (sentStep m st s) with ⟨l2, h2⟩
    rcases sentStep_chunks_extend m st s with ⟨l1, h1⟩
    exact ⟨l1 ++ l2, by rw [h2, h1, List.append_assoc]⟩

theorem paraStep_chunks_extend (m : Nat) (st : List String × String) (p : String) :
    ∃ l, (paraStep m st p).1 = st.1 ++ l := by
  rcases st with ⟨chunks, cc⟩
  simp only [paraStep]
  split
  · split
    · rcases sentFold_chunks_extend m (splitSentences p)
        ((if cc ≠ "" then chunks ++ [jsTrim cc] else chunks), "") with ⟨l, hl⟩
      refine ⟨(if cc ≠ "" then [jsTrim cc] else []) ++ l, ?_⟩
      rw [hl, if_push_chunks, List.append_assoc]
    · exact ⟨if cc ≠ "" then [jsTrim cc] else [],
        by by_cases hcc : cc = "" <;> simp [hcc]⟩
  · exact ⟨[], by simp⟩

theorem paraStep_inv (m : Nat) (st : List String × String) (p : String)
    (h : st.1 ≠ [] ∨ st.2 ≠ "") :
    (paraStep m st p).1 ≠ [] ∨ (paraStep m st p).2 ≠ "" := by
  rcases st with ⟨chunks, cc⟩
  simp only [paraStep]
  split
  · have hbase : (if cc ≠ "" then chunks ++ [jsTrim cc] else chunks) ≠ [] := by
      by_cases hcc : cc ≠ ""
      · rw [if_pos hcc]
        exact List.append_ne_nil_of_right_ne_nil _ (by simp)
      · rw [if_neg hcc]
        rcases h with h1 | h2
        · exact h1
        · exact absurd h2 hcc
    split
    · left
      rcases sentFold_chunks_extend m (splitSentences p)
        ((if cc ≠ "" then chunks ++ [jsTrim cc] else chunks), "") with ⟨l, hl⟩
      rw [hl]
      exact List.append_ne_nil_of_left_ne_nil hbase _
    · left
      exact hbase
  · rcases h with h1 | h2
    · exact Or.inl h1
    · exact Or.inr (string_append_ne_of_left (string_append_ne_of_left h2 _) _)

theorem paraStep_establish (m : Nat) (st : List String × String) (p : String)
    (hp : p ≠ "") (hlen : p.length ≤ m) :
    (paraStep m st p).1 ≠ [] ∨ (paraStep m st p).2 ≠ "" := by
  rcases st with ⟨chunks, cc⟩
  simp only [paraStep]
  split
  · rw [if_neg (not_lt.mpr hlen)]
    exact Or.inr hp
  · exact Or.inr (string_append_ne_of_right _ hp)

theorem paraFold_inv (m : Nat) :
    ∀ (ps : List String) (st : List String × String),
      (st.1 ≠ [] ∨ st.2 ≠ "") →
      ((ps.foldl (paraStep m) st).1 ≠ [] ∨ (ps.foldl (paraStep m) st).2 ≠ "") := by
  intro ps
  induction ps with
  | nil => intro st h; exact h
  | cons p t ih =>
    intro st h
    rw [List.foldl_cons]
    exact ih _ (paraStep_inv m st p h)

/-- C5 (amended): `chunkText` is a total function (never raises) and
returns at least one chunk whenever the text fits within the limit **or**
at least one blank-line-delimited paragraph is nonempty and itself fits
within `maxTokens * 4` characters.  (The unamended "any text produces at
least one chunk" fails for over-long texts whose paragraphs are all
degenerate — see the counterexample.) -/
theorem c5_chunker_nonempty (text : String) (maxTokens : Nat)
    (h : text.length ≤ maxTokens * 4 ∨
      ∃ p ∈ splitParagraphs text, p ≠ "" ∧ p.length ≤ maxTokens * 4) :
    chunkText text maxTokens ≠ [] := by
  unfold chunkText
  by_cases hfit : text.length ≤ maxTokens * 4
  · rw [if_pos hfit]
    simp
  · rw [if_neg hfit]
    rcases h with h | h
    · exact absurd h hfit
    rcases h with ⟨p, hp, hne, hlen⟩
    rcases List.append_of_mem hp with ⟨l1, l2, hsplit⟩
    rw [hsplit, List.foldl_append, List.foldl_cons]
    have hstep := paraStep_establish (maxTokens * 4)
      (l1.foldl (paraStep (maxTokens * 4)) ([], "")) p hne hlen
    have hinv := paraFold_inv (maxTokens * 4) l2 _ hstep
    by_cases hcc :
        (l2.foldl (paraStep (maxTokens * 4))
          (paraStep (maxTokens * 4)
            (l1.foldl (paraStep (maxTokens * 4)) ([], "")) p)).2 ≠ ""
    · rw [if_pos hcc]
      exact List.append_ne_nil_of_right_ne_nil _ (by simp)
    · rw [if_neg hcc]
      rcases hinv with h1 | h2
      · exact h1
      · exact absurd h2 hcc

/-- C5 witness: `"abc\n\nabcdef"` with `maxTokens = 1` is longer than the
limit but has the fitting nonempty paragraph `"abc"`, so chunking yields
at least one chunk. -/
theorem c5_witness :
    (∃ p ∈ splitParagraphs "abc\n\nabcdef", p ≠ "" ∧ p.length ≤ 1 * 4) ∧
    chunkText "abc\n\nabcdef" 1 ≠ [] := by
  refine ⟨⟨"abc", by decide, by decide, by decide⟩, ?_⟩
  exact c5_chunker_nonempty "abc\n\nabcdef" 1
    (Or.inr ⟨"abc", by decide, by decide, by decide⟩)

/-! ## C2 — diff detector -/

/-- The delta `compareArticles` emits for one entry of the new map (after
the maps are resolved to plain lists): `added` when the number is absent
from the old list, `modified` when present with different content, nothing
otherwise. -/
def diffNewEntry (oldArticles : List Article) (a : Article) :
    Option ChangedArticle :=
  match oldArticles.find? (fun b => b.article_number = a.article_number) with
  | none =>
    some { article_number := a.article_number, change_type := .added,
           new_content := some a.article_content }
  | some oldA =>
    if oldA.article_content ≠ a.article_content then
      some { article_number := a.article_number, change_type := .modified,
             old_content := some oldA.article_content,
             new_content := some a.article_content }
    else none

/-- The delta `compareArticles` emits for one entry of the old map:
`deleted` when its number is absent from the new list. -/
def diffOldEntry (newArticles : List Article) (b : Article) :
    Option ChangedArticle :=
  if newArticles.any (fun a => a.article_number = b.article_number) then none
  else
    some { article_number := b.article_number, change_type := .deleted,
           old_content := some b.article_content }

theorem mkMap_go (l : List Article) :
    ∀ (m : List (String × Article)),
      (∀ a ∈ l, m.any (fun p => p.1 = a.article_number) = false) →
      ((l.map (fun a => a.article_number)).Nodup) →
      l.foldl (fun m a => mapInsert m a.article_number a) m
        = m ++ l.map (fun a => (a.article_number, a)) := by
  induction l with
  | nil => intro m _ _; simp
  | cons a t ih =>
    intro m hfree hnodup
    have hnodup' := List.nodup_cons.mp
      (show (a.article_number :: t.map fun x => x.article_number).Nodup from hnodup)
    rw [List.foldl_cons]
    have hins : mapInsert m a.article_number a = m ++ [(a.article_number, a)] := by
      simp [mapInsert, hfree a (List.mem_cons_self _ _)]
    rw [hins, ih _ ?free hnodup'.2]
    · simp
    case free =>
      intro b hb
      rw [List.any_append, hfree b (List.mem_cons_of_mem _ hb)]
      simp only [Bool.false_or, List.any_cons, List.any_nil, Bool.or_false]
      have hne : ¬(a.article_number = b.article_number) :=
        fun he => hnodup'.1 (he ▸ List.mem_map_of_mem _ hb)
      simpa using hne

theorem mkArticleMap_eq (l : List Article)
    (h : (l.map (fun a => a.article_number)).Nodup) :
    mkArticleMap l = l.map (fun a => (a.article_number, a)) := by
  simpa using mkMap_go l [] (fun a _ => rfl) h

theorem mapGet_map_pair (l : List Article) (k : String) :
    mapGet (l.map (fun a => (a.article_number, a))) k
      = l.find? (fun a => a.article_number = k) := by
  unfold mapGet
  rw [List.find?_map, Option.map_map]
  have : (Prod.snd ∘ fun a : Article => (a.article_number, a)) = id := rfl
  rw [this, Option.map_id]
  rfl

theorem mapHas_map_pair (l : List Article) (k : String) :
    mapHas (l.map (fun a => (a.article_number, a))) k
      = l.any (fun a => a.article_number = k) := by
  induction l with
  | nil => rfl
  | cons a t ih =>
    simp only [mapHas] at ih ⊢
    rw [List.map_cons, List.any_cons, List.any_cons, ih]

/-- Under unique article numbers, `compareArticles` is the concatenation
of the per-entry deltas of the new list and the old list. -/
theorem compareArticles_eq (oldArticles newArticles : List Article)
    (ho : (oldArticles.map (fun a => a.article_number)).Nodup)
    (hn : (newArticles.map (fun a => a.article_number)).Nodup) :
    compareArticles oldArticles newArticles
      = newArticles.filterMap (diffNewEntry oldArticles)
        ++ oldArticles.filterMap (diffOldEntry newArticles) := by
  unfold compareArticles
  dsimp only
  rw [mkArticleMap_eq _ ho, mkArticleMap_eq _ hn,
    List.filterMap_map, List.filterMap_map]
  congr 1
  · apply List.filterMap_congr
    intro a _
    show (match mapGet (oldArticles.map fun a => (a.article_number, a))
        a.article_number with
      | none =>
        some { article_number := a.article_number, change_type := .added,
               new_content := some a.article_content }
      | some oldA =>
        if oldA.article_content ≠ a.article_content then
          some { article_number := a.article_number, change_type := .modified,
                 old_content := some oldA.article_content,
                 new_content := some a.article_content }
        else none)
      = diffNewEntry oldArticles a
    rw [mapGet_map_pair]
    rfl
  · apply List.filterMap_congr
    intro b _
    show (if mapHas (newArticles.map fun a => (a.article_number, a))
        b.article_number then none
      else
        some { article_number := b.article_number, change_type := .deleted,
               old_content := some b.article_content })
      = diffOldEntry newArticles b
    rw [mapHas_map_pair]
    rfl

theorem diffNewEntry_key (old : List Article) (a : Article) (ch : ChangedArticle)
    (h : diffNewEntry old a = some ch) : ch.article_number = a.article_number := by
  unfold diffNewEntry at h
  split at h
  · injection h with h'
    rw [← h']
  · split at h
    · injection h with h'
      rw [← h']
    · simp at h

theorem diffOldEntry_key (new : List Article) (b : Article) (ch : ChangedArticle)
    (h : diffOldEntry new b = some ch) : ch.article_number = b.article_number := by
  unfold diffOldEntry at h
  split at h
  · simp at h
  · injection h with h'
    rw [← h']

theorem diffOldEntry_some_any (new : List Article) (b : Article)
    (ch : ChangedArticle) (h : diffOldEntry new b = some ch) :
    new.any (fun a => a.article_number = b.article_number) = false := by
  unfold diffOldEntry at h
  split at h
  · simp at h
  · rename_i hcond
    simpa using hcond

theorem find?_article_none (l : List Article) (k : String)
    (h : ∀ b ∈ l, b.article_number ≠ k) :
    l.find? (fun a => a.article_number = k) = none :=
  List.find?_eq_none.mpr (fun x hx => by simpa using h x hx)

theorem find?_article_self (l : List Article) (b : Article) (hb : b ∈ l)
    (hn : (l.map (fun a => a.article_number)).Nodup) :
    l.find? (fun a => a.article_number = b.article_number) = some b := by
  cases hf : l.find? (fun a => a.article_number = b.article_number) with
  | none =>
    have := List.find?_eq_none.mp hf b hb
    simp at this
  | some x =>
    have hx := List.mem_of_find?_eq_some hf
    have hpx : x.article_number = b.article_number := by
      simpa using List.find?_some hf
    rw [List.inj_on_of_nodup_map hn hx hb hpx]

theorem nodup_filterMap_keys {α : Type} (key : α → String)
    (f : α → Option ChangedArticle)
    (hf : ∀ x ch, f x = some ch → ch.article_number = key x) :
    ∀ l : List α, (l.map key).Nodup →
      ((l.filterMap f).map (fun ch => ch.article_number)).Nodup := by
  intro l
  induction l with
  | nil => intro _; simp
  | cons x t ih =>
    intro h
    have h' := List.nodup_cons.mp (show (key x :: t.map key).Nodup from h)
    rw [List.filterMap_cons]
    cases hfx : f x with
    | none => exact ih h'.2
    | some ch =>
      rw [List.map_cons]
      refine List.nodup_cons.mpr ⟨?_, ih h'.2⟩
      rw [hf x ch hfx]
      intro hmem
      rcases List.mem_map.mp hmem with ⟨ch', hch', hkey⟩
      rcases List.mem_filterMap.mp hch' with ⟨y, hy, hfy⟩
      apply h'.1
      have hxy : key x = key y := by rw [← hkey, hf y ch' hfy]
      rw [hxy]
      exact List.mem_map_of_mem _ hy

/-- C2: for article lists with unique numbers, `compareArticles` emits an
`added` delta (with new content) for each number only in the new list, a
`modified` delta (with old and new content) for each number in both whose
contents differ, a `deleted` delta (with old content) for each number only
in the old list; a number whose content is unchanged yields no delta at
all; and no article number appears twice in the output (so with the
emission clauses, every changed number appears exactly once). -/
theorem c2_compare_articles (oldArticles newArticles : List Article)
    (ho : (oldArticles.map (fun a => a.article_number)).Nodup)
    (hn : (newArticles.map (fun a => a.article_number)).Nodup) :
    (∀ a ∈ newArticles,
      (∀ b ∈ oldArticles, b.article_number ≠ a.article_number) →
      ({ article_number := a.article_number, change_type := .added,
         new_content := some a.article_content : ChangedArticle }
        ∈ compareArticles oldArticles newArticles)) ∧
    (∀ a ∈ newArticles, ∀ b ∈ oldArticles,
      b.article_number = a.article_number →
      b.article_content ≠ a.article_content →
      ({ article_number := a.article_number, change_type := .modified,
         old_content := some b.article_content,
         new_content := some a.article_content : ChangedArticle }
        ∈ compareArticles oldArticles newArticles)) ∧
    (∀ b ∈ oldArticles,
      (∀ a ∈ newArticles, a.article_number ≠ b.article_number) →
      ({ article_number := b.article_number, change_type := .deleted,
         old_content := some b.article_content : ChangedArticle }
        ∈ compareArticles oldArticles newArticles)) ∧
    (∀ a ∈ newArticles, ∀ b ∈ oldArticles,
      b.article_number = a.article_number →
      b.article_content = a.article_content →
      ∀ ch ∈ compareArticles oldArticles newArticles,
        ch.article_number ≠ a.article_number) ∧
    ((compareArticles oldArticles newArticles).map
      (fun ch => ch.article_number)).Nodup := by
  have E := compareArticles_eq oldArticles newArticles ho hn
  refine ⟨?_, ?_, ?_, ?_, ?_⟩
  · intro a ha hno
    rw [E]
    refine List.mem_append.mpr (Or.inl (List.mem_filterMap.mpr ⟨a, ha, ?_⟩))
    unfold diffNewEntry
    rw [find?_article_none _ _ hno]
  · intro a ha b hb hnum hcontent
    rw [E]
    refine List.mem_append.mpr (Or.inl (List.mem_filterMap.mpr ⟨a, ha, ?_⟩))
    unfold diffNewEntry
    have hfind : oldArticles.find? (fun x => x.article_number = a.article_number)
        = some b := by
      have h := find?_article_self oldArticles b hb ho
      rw [hnum] at h
      exact h
    rw [hfind]
    dsimp only
    rw [if_pos hcontent]
  · intro b hb hno
    rw [E]
    refine List.mem_append.mpr (Or.inr (List.mem_filterMap.mpr ⟨b, hb, ?_⟩))
    unfold diffOldEntry
    have hany : newArticles.any (fun a => a.article_number = b.article_number)
        = false :=
      List.any_eq_false.mpr (fun x hx => by simpa using hno x hx)
    rw [hany]
    simp
  · intro a ha b hb hnum hcontent ch hch hchnum
    rw [E] at hch
    rcases List.mem_append.mp hch with h1 | h2
    · rcases List.mem_filterMap.mp h1 with ⟨x, hx, hfx⟩
      have hkey := diffNewEntry_key _ _ _ hfx
      have hxa : x = a :=
        List.inj_on_of_nodup_map hn hx ha (by rw [← hkey, hchnum])
      rw [hxa] at hfx
      unfold diffNewEntry at hfx
      have hfind : oldArticles.find? (fun y => y.article_number = a.article_number)
          = some b := by
        have h := find?_article_self oldArticles b hb ho
        rw [hnum] at h
        exact h
      rw [hfind] at hfx
      dsimp only at hfx
      rw [if_neg (not_not_intro hcontent)] at hfx
      simp at hfx
    · rcases List.mem_filterMap.mp h2 with ⟨y, hy, hfy⟩
      have hany := diffOldEntry_some_any _ _ _ hfy
      have hkey := diffOldEntry_key _ _ _ hfy
      have hay : a.article_number = y.article_number := by
        rw [← hchnum, hkey]
      have htrue : newArticles.any (fun z => z.article_number = y.article_number)
          = true :=
        List.any_eq_true.mpr ⟨a, ha, by simp [hay]⟩
      rw [hany] at htrue
      simp at htrue
  · rw [E, List.map_append]
    refine List.nodup_append.mpr ⟨?_, ?_, ?_⟩
    · exact nodup_filterMap_keys (fun a => a.article_number)
        (diffNewEntry oldArticles)
        (fun x ch h => diffNewEntry_key _ _ _ h) newArticles hn
    · exact nodup_filterMap_keys (fun b => b.article_number)
        (diffOldEntry newArticles)
        (fun x ch h => diffOldEntry_key _ _ _ h) oldArticles ho
    · intro s hs1 hs2
      rcases List.mem_map.mp hs1 with ⟨ch, hch, hkey1⟩
      rcases List.mem_filterMap.mp hch with ⟨x, hx, hfx⟩
      rcases List.mem_map.mp hs2 with ⟨ch', hch', hkey2⟩
      rcases List.mem_filterMap.mp hch' with ⟨y, hy, hfy⟩
      have h1 := diffNewEntry_key _ _ _ hfx
      have h2 := diffOldEntry_key _ _ _ hfy
      have hany := diffOldEntry_some_any _ _ _ hfy
      have hxy : x.article_number = y.article_number := by
        rw [← h1, hkey1, ← hkey2, h2]
      have htrue : newArticles.any (fun z => z.article_number = y.article_number)
          = true :=
        List.any_eq_true.mpr ⟨x, hx, by simp [hxy]⟩
      rw [hany] at htrue
      simp at htrue

/-- C2 witness: on `old = [1 ↦ "A", 2 ↦ "B"]`, `new = [1 ↦ "A2", 3 ↦ "C"]`
the diff contains the `modified`, `added` and `deleted` deltas and no
duplicated article number. -/
theorem c2_witness :
    ({ article_number := "1", change_type := .modified, old_content := some "A",
       new_content := some "A2" : ChangedArticle }
      ∈ compareArticles [⟨"1", "t", "A"⟩, ⟨"2", "t", "B"⟩]
          [⟨"1", "t", "A2"⟩, ⟨"3", "t", "C"⟩]) ∧
    ({ article_number := "3", change_type := .added,
       new_content := some "C" : ChangedArticle }
      ∈ compareArticles [⟨"1", "t", "A"⟩, ⟨"2", "t", "B"⟩]
          [⟨"1", "t", "A2"⟩, ⟨"3", "t", "C"⟩]) ∧
    ({ article_number := "2", change_type := .deleted,
       old_content := some "B" : ChangedArticle }
      ∈ compareArticles [⟨"1", "t", "A"⟩, ⟨"2", "t", "B"⟩]
          [⟨"1", "t", "A2"⟩, ⟨"3", "t", "C"⟩]) ∧
    ((compareArticles [⟨"1", "t", "A"⟩, ⟨"2", "t", "B"⟩]
        [⟨"1", "t", "A2"⟩, ⟨"3", "t", "C"⟩]).map
      (fun ch => ch.article_number)).Nodup := by
  have h := c2_compare_articles [⟨"1", "t", "A"⟩, ⟨"2", "t", "B"⟩]
      [⟨"1", "t", "A2"⟩, ⟨"3", "t", "C"⟩] (by decide) (by decide)
  refine ⟨?_, ?_, ?_, h.2.2.2.2⟩
  · exact h.2.1 ⟨"1", "t", "A2"⟩ (by decide) ⟨"1", "t", "A"⟩ (by decide) rfl
      (by decide)
  · exact h.1 ⟨"3", "t", "C"⟩ (by decide) (by decide)
  · exact h.2.2.1 ⟨"2", "t", "B"⟩ (by decide) (by decide)

end RowFinder
